import Mathlib

/-!
# nanopb `pb.h` (nanopb-0.1.7): common definitions of the codec

A shallow embedding of the header `src/pb.h`: the `pb_type_t` enumerators and the
`PB_HTYPE` / `PB_LTYPE` accessors, the wire types, the error-message macros, the field
descriptor `pb_field_t` in its three width profiles, the layout macros that fill it, and
the build-time configuration all of these depend on.

Conventions: enumerators and macro results are natural numbers; a value stored in a
member of a fixed-width integer type is reduced modulo the width of that type; a C
pointer to a string is an `Option String` (`none` is `NULL`); a build-time switch
(`#ifdef`) is a `Bool` parameter of the definitions it selects between.
-/

namespace Nanopb

/-! ## `pb_type_t` (pb.h, lines 52-107) -/

/-- Enumerator `PB_LTYPE_VARINT = 0x00`. -/
def PB_LTYPE_VARINT : Nat := 0x00
/-- Enumerator `PB_LTYPE_SVARINT = 0x01`. -/
def PB_LTYPE_SVARINT : Nat := 0x01
/-- Enumerator `PB_LTYPE_FIXED32 = 0x02`. -/
def PB_LTYPE_FIXED32 : Nat := 0x02
/-- Enumerator `PB_LTYPE_FIXED64 = 0x03`. -/
def PB_LTYPE_FIXED64 : Nat := 0x03
/-- Enumerator `PB_LTYPE_LAST_PACKABLE = 0x03`. -/
def PB_LTYPE_LAST_PACKABLE : Nat := 0x03
/-- Enumerator `PB_LTYPE_BYTES = 0x04`. -/
def PB_LTYPE_BYTES : Nat := 0x04
/-- Enumerator `PB_LTYPE_STRING = 0x05`. -/
def PB_LTYPE_STRING : Nat := 0x05
/-- Enumerator `PB_LTYPE_SUBMESSAGE = 0x06`. -/
def PB_LTYPE_SUBMESSAGE : Nat := 0x06
/-- Enumerator `PB_LTYPES_COUNT = 7`. -/
def PB_LTYPES_COUNT : Nat := 7
/-- Enumerator `PB_LTYPE_MASK = 0x0F`. -/
def PB_LTYPE_MASK : Nat := 0x0F
/-- Enumerator `PB_HTYPE_REQUIRED = 0x00`. -/
def PB_HTYPE_REQUIRED : Nat := 0x00
/-- Enumerator `PB_HTYPE_OPTIONAL = 0x10`. -/
def PB_HTYPE_OPTIONAL : Nat := 0x10
/-- Enumerator `PB_HTYPE_ARRAY = 0x20`. -/
def PB_HTYPE_ARRAY : Nat := 0x20
/-- Enumerator `PB_HTYPE_CALLBACK = 0x30`. -/
def PB_HTYPE_CALLBACK : Nat := 0x30
/-- Enumerator `PB_HTYPE_MASK = 0xF0`. -/
def PB_HTYPE_MASK : Nat := 0xF0

/-- Macro `#define PB_HTYPE(x) ((x) & PB_HTYPE_MASK)`. -/
def PB_HTYPE (x : Nat) : Nat := x &&& PB_HTYPE_MASK

/-- Macro `#define PB_LTYPE(x) ((x) & PB_LTYPE_MASK)`. -/
def PB_LTYPE (x : Nat) : Nat := x &&& PB_LTYPE_MASK

/-- The content kinds the enumeration declares, in declaration order. -/
def declared_ltypes : List Nat :=
  [PB_LTYPE_VARINT, PB_LTYPE_SVARINT, PB_LTYPE_FIXED32, PB_LTYPE_FIXED64,
   PB_LTYPE_BYTES, PB_LTYPE_STRING, PB_LTYPE_SUBMESSAGE]

/-- The modifiers the enumeration declares, in declaration order. -/
def declared_htypes : List Nat :=
  [PB_HTYPE_REQUIRED, PB_HTYPE_OPTIONAL, PB_HTYPE_ARRAY, PB_HTYPE_CALLBACK]

/-- Every type byte `k | h` built from a declared content kind and a declared modifier,
content kind major. -/
def declared_type_bytes : List Nat :=
  declared_ltypes.flatMap fun k => declared_htypes.map fun h => k ||| h

/-! ## Wire types (pb.h, lines 191-197) -/

/-- Enumerator `PB_WT_VARINT = 0`. -/
def PB_WT_VARINT : Nat := 0
/-- Enumerator `PB_WT_64BIT = 1`. -/
def PB_WT_64BIT : Nat := 1
/-- Enumerator `PB_WT_STRING = 2`. -/
def PB_WT_STRING : Nat := 2
/-- Enumerator `PB_WT_32BIT = 5`. -/
def PB_WT_32BIT : Nat := 5

/-- The enumerators of `pb_wire_type_t`, in declaration order. -/
def declared_wire_types : List Nat :=
  [PB_WT_VARINT, PB_WT_64BIT, PB_WT_STRING, PB_WT_32BIT]

/-- Modelled from the spec: the key that precedes every field occurrence on the wire,
which the encoder (`pb_encode.c`, not part of this header) builds.  The spec gives it as
`(tag << 3) | wire_type`, carried by a varint whose value is a `u64`. -/
def tag_and_wiretype (tag wire_type : Nat) : Nat :=
  ((tag <<< 3) ||| wire_type) % 2 ^ 64

/-! ## Error-message macros (pb.h, lines 206-223) -/

/-- A stream as the error macros see it: the member `errmsg` (a `const char *`, `NULL`
when no error was recorded) next to the rest of the stream, which the macros never
touch. -/
structure pb_stream_t (σ : Type) where
  /-- All members of the stream other than `errmsg`. -/
  state : σ
  /-- Member `errmsg`. -/
  errmsg : Option String
deriving DecidableEq, Repr

/-- Macro `PB_RETURN_ERROR(stream,msg)` under both settings of `PB_NO_ERRMSG`: the stream
after the macro and the value the enclosing function returns.
With `PB_NO_ERRMSG` defined the macro is `return false`; otherwise it is
`do { if ((stream)->errmsg == NULL) (stream)->errmsg = (msg); return false; } while(0)`. -/
def PB_RETURN_ERROR {σ : Type} (no_errmsg : Bool) (stream : pb_stream_t σ)
    (msg : Option String) : pb_stream_t σ × Bool :=
  if no_errmsg then
    (stream, false)
  else
    ((if stream.errmsg = none then { stream with errmsg := msg } else stream), false)

/-- Macro `PB_GET_ERROR(stream)` under both settings of `PB_NO_ERRMSG`: the constant
`"(errmsg disabled)"` when defined, `((stream)->errmsg ? (stream)->errmsg : "(none)")`
otherwise.  The result is a pointer, hence an `Option String`. -/
def PB_GET_ERROR {σ : Type} (no_errmsg : Bool) (stream : pb_stream_t σ) : Option String :=
  if no_errmsg then
    some "(errmsg disabled)"
  else
    match stream.errmsg with
    | some m => some m
    | none => some "(none)"

/-- The stream after a series of failing returns `PB_RETURN_ERROR(stream, m)` for the
messages `msgs` in order, as happens while nested calls unwind. -/
def return_errors {σ : Type} (no_errmsg : Bool) (stream : pb_stream_t σ)
    (msgs : List (Option String)) : pb_stream_t σ :=
  msgs.foldl (fun s m => (PB_RETURN_ERROR no_errmsg s m).1) stream

/-! ## `pb_field_t` (pb.h, lines 109-147) -/

/-- The width in bits of the members `tag`, `data_size` and `array_size`, selected by
which of `PB_FIELD_16BIT` and `PB_FIELD_32BIT` the build defines:
`#if !defined(PB_FIELD_16BIT) && !defined(PB_FIELD_32BIT)` gives `uint8_t`,
`#elif defined(PB_FIELD_16BIT) && !defined(PB_FIELD_32BIT)` gives `uint16_t`,
`#else` gives `uint32_t`. -/
def field_bits (field_16bit field_32bit : Bool) : Nat :=
  if !field_16bit && !field_32bit then 8
  else if field_16bit && !field_32bit then 16
  else 32

/-- Conversion of a value to an unsigned integer type of `bits` bits. -/
def to_uint (bits : Nat) (v : Nat) : Nat := v % 2 ^ bits

/-- Conversion of a value to `int8_t` (two's complement wrap-around). -/
def to_int8 (v : Int) : Int := (v + 128) % 256 - 128

/-- A value of `struct _pb_field_t`.  `ptr` is an address, 0 being `NULL`. -/
structure pb_field_t where
  /-- Member `tag` (`uint8_t`, `uint16_t` or `uint32_t`). -/
  tag : Nat
  /-- Member `type` (`pb_type_t`). -/
  type : Nat
  /-- Member `data_offset` (`uint8_t` in every profile). -/
  data_offset : Nat
  /-- Member `size_offset` (`int8_t` in every profile). -/
  size_offset : Int
  /-- Member `data_size` (`uint8_t`, `uint16_t` or `uint32_t`). -/
  data_size : Nat
  /-- Member `array_size` (`uint8_t`, `uint16_t` or `uint32_t`). -/
  array_size : Nat
  /-- Member `ptr` (`const void *`). -/
  ptr : Nat
deriving DecidableEq, Repr

/-- The descriptor a brace initializer `{tag, type, data_offset, size_offset, data_size,
array_size, ptr}` produces in the profile selected by the two switches: each value is
converted to the type of the member it initializes, in the member order of the
structure (the same order in all three profiles).  `pb_type_t` is a `pb_packed`
enumeration whose enumerators all fit one byte. -/
def pb_field_init (field_16bit field_32bit : Bool)
    (tag type data_offset : Nat) (size_offset : Int) (data_size array_size ptr : Nat) :
    pb_field_t :=
  { tag := to_uint (field_bits field_16bit field_32bit) tag
    type := to_uint 8 type
    data_offset := to_uint 8 data_offset
    size_offset := to_int8 size_offset
    data_size := to_uint (field_bits field_16bit field_32bit) data_size
    array_size := to_uint (field_bits field_16bit field_32bit) array_size
    ptr := ptr }

/-- Macro `#define PB_LAST_FIELD {0,(pb_type_t) 0,0,0,0,0,0}`, as a descriptor of the
profile selected by the two switches. -/
def PB_LAST_FIELD (field_16bit field_32bit : Bool) : pb_field_t :=
  pb_field_init field_16bit field_32bit 0 0 0 0 0 0 0

/-- The invariant the spec puts on a descriptor table: it ends with the terminator
`PB_LAST_FIELD`, and every entry before it carries a positive tag (tag 0 is reserved). -/
def table_well_formed (field_16bit field_32bit : Bool) (table : List pb_field_t) : Bool :=
  table.getLast? == some (PB_LAST_FIELD field_16bit field_32bit) &&
    table.dropLast.all fun f => decide (0 < f.tag)

/-! ## Layout macros (pb.h, lines 199-203) -/

/-- A member of a message structure as the layout macros see it: `offsetof(st, m)` and
`sizeof ((st*)0)->m`. -/
structure member where
  /-- The value of `offsetof(st, m)`. -/
  offset : Nat
  /-- The value of `pb_membersize(st, m)`. -/
  size : Nat
deriving DecidableEq, Repr

/-- Subtraction of two `size_t` values, `size_t` being `bits` bits wide. -/
def size_t_sub (bits a b : Nat) : Nat :=
  (a % 2 ^ bits + (2 ^ bits - b % 2 ^ bits)) % 2 ^ bits

/-- Macro `#define pb_delta_end(st, m1, m2)
(offsetof(st, m1) - offsetof(st, m2) - pb_membersize(st, m2))`, all three operands
being `size_t`. -/
def pb_delta_end (bits : Nat) (m1 m2 : member) : Nat :=
  size_t_sub bits (size_t_sub bits m1.offset m2.offset) m2.size

/-- Members in ascending, non-overlapping order after a member `prev`: each starts at or
after the end of the one before it. -/
def ascending_from (prev : member) : List member → Bool
  | [] => true
  | m :: ms => decide (prev.offset + prev.size ≤ m.offset) && ascending_from m ms

/-- Every gap between the end of a member and the start of the next one, starting after
`prev`, is at most `limit`. -/
def gaps_at_most (limit : Nat) (prev : member) : List member → Bool
  | [] => true
  | m :: ms => decide (m.offset ≤ prev.offset + prev.size + limit) && gaps_at_most limit m ms

/-- A member of a message structure with what its descriptor is declared from: the
field tag, `offsetof(st, m)`, the size of a single item (`pb_membersize(st, m)`, or
`pb_membersize(st, m[0])` for an array) and, for a field declared with `PB_HTYPE_ARRAY`,
the number of entries (`pb_arraysize(st, m)`). -/
structure described_member where
  /-- The field tag. -/
  tag : Nat
  /-- The value of `offsetof(st, m)`. -/
  offset : Nat
  /-- The size in bytes of a single item. -/
  item_size : Nat
  /-- The number of entries of an array field, `none` for a field that is no array. -/
  count : Option Nat
deriving DecidableEq, Repr

/-- The storage of a described member as the layout macros see it: its offset and its
whole size, all entries of an array included. -/
def as_member (d : described_member) : member :=
  { offset := d.offset, size := d.item_size * d.count.getD 1 }

/-- The descriptor of a member in the profile selected by the two switches, `prev` being
the member described before it: `data_offset` is initialized with `pb_delta_end` against
`prev`, `data_size` with the size of a single item and `array_size` with the number of
entries (0 for a field that is no array); every initializer is converted to the type of
its member by `pb_field_init`.  The has-flag or count of the field plays no part here
(`size_offset` is left 0). -/
def describe (field_16bit field_32bit : Bool) (bits : Nat) (prev : member)
    (d : described_member) : pb_field_t :=
  pb_field_init field_16bit field_32bit d.tag
    (match d.count with
      | some _ => PB_HTYPE_ARRAY
      | none => PB_HTYPE_REQUIRED)
    (pb_delta_end bits (as_member d) prev) 0 d.item_size (d.count.getD 0) 0

/-- The table that describes `members` in order, the first one against `prev`. -/
def describe_all (field_16bit field_32bit : Bool) (bits : Nat) (prev : member) :
    List described_member → List pb_field_t
  | [] => []
  | d :: ds =>
    describe field_16bit field_32bit bits prev d ::
      describe_all field_16bit field_32bit bits (as_member d) ds

/-- Modelled from the spec: the size of the storage of a field as the engine (its code,
`pb_decode.c` and `pb_encode.c`, is not part of this header) reads it from the
descriptor: `data_size`, the size of a single item, times `array_size`, the maximum
number of entries, for a field whose modifier is `PB_HTYPE_ARRAY`; a `size_t` of `bits`
bits. -/
def stored_size (bits : Nat) (f : pb_field_t) : Nat :=
  if PB_HTYPE f.type = PB_HTYPE_ARRAY then to_uint bits (f.data_size * f.array_size)
  else f.data_size

/-- Modelled from the spec: the walk over a descriptor table by the engine, which keeps
the position of the current field and moves to the next one with
`pos := pos + previous size + data_offset`, every quantity read from the descriptors.
The result is the position computed for each field. -/
def walk_offsets (bits : Nat) (pos prev_size : Nat) : List pb_field_t → List Nat
  | [] => []
  | f :: rest =>
    (pos + prev_size + f.data_offset) ::
      walk_offsets bits (pos + prev_size + f.data_offset) (stored_size bits f) rest

/-- The positions the walk computes for `members` stored in a structure, starting at the
beginning of the structure (position 0, nothing before the first member). -/
def recovered_offsets (field_16bit field_32bit : Bool) (bits : Nat)
    (members : List described_member) : List Nat :=
  walk_offsets bits 0 0 (describe_all field_16bit field_32bit bits ⟨0, 0⟩ members)

/-- Every item size and every number of entries fits the members `data_size` and
`array_size` of the profile selected by the two switches. -/
def sizes_fit (field_16bit field_32bit : Bool) (members : List described_member) : Bool :=
  members.all fun d =>
    decide (d.item_size < 2 ^ field_bits field_16bit field_32bit) &&
      decide (d.count.getD 0 < 2 ^ field_bits field_16bit field_32bit)

/-- Every member ends within the range of `size_t`. -/
def within_size_t (bits : Nat) (members : List described_member) : Bool :=
  members.all fun d => decide ((as_member d).offset + (as_member d).size < 2 ^ bits)

/-- Conversion of a value to `int`, `int` being `int_bits` bits wide (two's complement
wrap-around); also the result of an `int` operation whose exact value is `v`. -/
def to_int (int_bits : Nat) (v : Int) : Int :=
  (v + 2 ^ (int_bits - 1)) % 2 ^ int_bits - 2 ^ (int_bits - 1)

/-- Macro `#define pb_delta(st, m1, m2) ((int)offsetof(st, m1) - (int)offsetof(st, m2))`:
both offsets are cast to `int` and subtracted as `int`. -/
def pb_delta (int_bits : Nat) (m1 m2 : member) : Int :=
  to_int int_bits (to_int int_bits m1.offset - to_int int_bits m2.offset)

/-- The type of a structure member as `sizeof` sees it: an object of a given size that
is not an array, or an array of `count` elements of one element type. -/
inductive ctype where
  /-- A member that is not an array, of the given size in bytes. -/
  | object (size : Nat)
  /-- An array member `elem m[count]`. -/
  | array (elem : ctype) (count : Nat)
deriving DecidableEq, Repr

/-- The value of `sizeof` for a type: an array is its elements laid out back to back. -/
def sizeof : ctype → Nat
  | .object size => size
  | .array elem count => count * sizeof elem

/-- Macro `#define pb_membersize(st, m) (sizeof ((st*)0)->m)`, for a member of type
`m`. -/
def pb_membersize (m : ctype) : Nat := sizeof m

/-- Macro `#define pb_arraysize(st, m) (pb_membersize(st, m) / pb_membersize(st, m[0]))`,
for a member of type `m`: `m[0]` is the first element of an array member, and the macro
does not compile (`none`) for a member that is not an array. -/
def pb_arraysize (m : ctype) : Option Nat :=
  match m with
  | .object _ => none
  | .array elem _ => some (pb_membersize m / pb_membersize elem)

/-! ## Build-time configuration (pb.h, lines 32-40) -/

/-- An integer constant expression as a build may define `PB_MAX_REQUIRED_FIELDS` to:
decimal constants, with or without the suffix `u`, under unary minus and the four
arithmetic operators. -/
inductive cexpr where
  /-- A decimal constant, `value` or `value u`. -/
  | lit (value : Nat) (u_suffix : Bool)
  /-- Unary minus, `-e`. -/
  | neg (e : cexpr)
  /-- Sum, `a + b`. -/
  | add (a b : cexpr)
  /-- Difference, `a - b`. -/
  | sub (a b : cexpr)
  /-- Product, `a * b`. -/
  | mul (a b : cexpr)
  /-- Quotient, `a / b`. -/
  | div (a b : cexpr)
deriving DecidableEq, Repr

/-- Who evaluates an expression.  In `#if` the preprocessor treats every signed type as
`intmax_t` and every unsigned type as `uintmax_t`, both 64 bits wide; in C code the
compiler uses `int` and `long` of the widths of the platform, `long long` being 64 bits
wide. -/
inductive evaluator where
  /-- The preprocessor, in `#if`. -/
  | preprocessor
  /-- The compiler, in C code, for a platform with these widths of `int` and `long`. -/
  | compiler (int_bits long_bits : Nat)
deriving DecidableEq, Repr

/-- An integer value with its type: the width, the signedness and the number. -/
structure cint where
  /-- Width of the type in bits. -/
  bits : Nat
  /-- Whether the type is unsigned. -/
  is_unsigned : Bool
  /-- The number. -/
  value : Int
deriving DecidableEq, Repr

/-- The type of a decimal constant: without suffix the first of `int`, `long`,
`long long` that holds it, with the suffix `u` the first of their unsigned versions.
For the preprocessor these are all 64 bits wide, and a constant without suffix that only
`uintmax_t` holds is taken as unsigned.  No type (`none`) is a diagnosed error. -/
def literal_type (ev : evaluator) (value : Nat) (u_suffix : Bool) : Option (Nat × Bool) :=
  match ev with
  | .preprocessor =>
    if !u_suffix && value < 2 ^ 63 then some (64, false)
    else if value < 2 ^ 64 then some (64, true)
    else none
  | .compiler int_bits long_bits =>
    if u_suffix then
      if value < 2 ^ int_bits then some (int_bits, true)
      else if value < 2 ^ long_bits then some (long_bits, true)
      else if value < 2 ^ 64 then some (64, true)
      else none
    else
      if value < 2 ^ (int_bits - 1) then some (int_bits, false)
      else if value < 2 ^ (long_bits - 1) then some (long_bits, false)
      else if value < 2 ^ 63 then some (64, false)
      else none

/-- Conversion of a number to the type of the given width and signedness: reduction
modulo `2 ^ bits` for an unsigned type, two's complement wrap-around for a signed one. -/
def convert (bits : Nat) (is_unsigned : Bool) (v : Int) : Int :=
  if is_unsigned then v % 2 ^ bits else to_int bits v

/-- The usual arithmetic conversions: the common type of two operands is the wider of
the two types, and the unsigned one when both are equally wide. -/
def common_type (a b : cint) : Nat × Bool :=
  if a.bits = b.bits then (a.bits, a.is_unsigned || b.is_unsigned)
  else if a.bits < b.bits then (b.bits, b.is_unsigned)
  else (a.bits, a.is_unsigned)

/-- A binary operator: both operands are converted to the common type, the operator is
applied, and the result has the common type. -/
def binary (op : Int → Int → Option Int) (a b : cint) : Option cint :=
  (op (convert (common_type a b).1 (common_type a b).2 a.value)
      (convert (common_type a b).1 (common_type a b).2 b.value)).map fun v =>
    { bits := (common_type a b).1, is_unsigned := (common_type a b).2,
      value := convert (common_type a b).1 (common_type a b).2 v }

/-- The value of an integer constant expression for the given evaluator; `none` when
the expression is diagnosed (a constant no type holds, a division by zero).  Division
truncates towards zero. -/
def eval_cexpr (ev : evaluator) : cexpr → Option cint
  | .lit value u_suffix =>
    (literal_type ev value u_suffix).map fun t =>
      { bits := t.1, is_unsigned := t.2, value := (value : Int) }
  | .neg e =>
    (eval_cexpr ev e).map fun a =>
      { bits := a.bits, is_unsigned := a.is_unsigned,
        value := convert a.bits a.is_unsigned (-a.value) }
  | .add a b =>
    (eval_cexpr ev a).bind fun x => (eval_cexpr ev b).bind fun y =>
      binary (fun p q => some (p + q)) x y
  | .sub a b =>
    (eval_cexpr ev a).bind fun x => (eval_cexpr ev b).bind fun y =>
      binary (fun p q => some (p - q)) x y
  | .mul a b =>
    (eval_cexpr ev a).bind fun x => (eval_cexpr ev b).bind fun y =>
      binary (fun p q => some (p * q)) x y
  | .div a b =>
    (eval_cexpr ev a).bind fun x => (eval_cexpr ev b).bind fun y =>
      binary (fun p q => if q = 0 then none else some (Int.tdiv p q)) x y

/-- The comparison `a < b`: both operands are converted to the common type and
compared there. -/
def less_than (a b : cint) : Bool :=
  decide (convert (common_type a b).1 (common_type a b).2 a.value
    < convert (common_type a b).1 (common_type a b).2 b.value)

/-- The replacement of the macro `PB_MAX_REQUIRED_FIELDS` after lines 34-36: what the
build defined it to (`cmdline`, on the compiler command line or before the include), and
`64` when the build left it undefined
(`#ifndef PB_MAX_REQUIRED_FIELDS` / `#define PB_MAX_REQUIRED_FIELDS 64`). -/
def PB_MAX_REQUIRED_FIELDS (cmdline : Option cexpr) : cexpr :=
  match cmdline with
  | some e => e
  | none => .lit 64 false

/-- What lines 38-40 do with a configuration. -/
inductive guard_result where
  /-- The condition of `#if` is false: the header goes on, the preprocessor having
  computed this value for the macro. -/
  | accepted (value : cint)
  /-- The condition of `#if` is true: `#error` stops the build with this message. -/
  | rejected (message : String)
  /-- The condition of `#if` cannot be evaluated: the build stops there. -/
  | malformed
deriving DecidableEq, Repr

/-- Lines 38-40: `#if PB_MAX_REQUIRED_FIELDS < 64` is evaluated by the preprocessor and,
when true, stops the build with `#error`. -/
def check_max_required_fields (cmdline : Option cexpr) : guard_result :=
  match eval_cexpr .preprocessor (PB_MAX_REQUIRED_FIELDS cmdline),
      eval_cexpr .preprocessor (.lit 64 false) with
  | some v, some limit =>
    if less_than v limit then
      .rejected "You should not lower PB_MAX_REQUIRED_FIELDS from the default value (64)."
    else
      .accepted v
  | _, _ => .malformed

/-- The capacity of the required-field tracking set: the value the macro
`PB_MAX_REQUIRED_FIELDS` has where C code uses it, on a platform with the given widths
of `int` and `long`. -/
def required_fields_capacity (int_bits long_bits : Nat) (cmdline : Option cexpr) :
    Option Int :=
  (eval_cexpr (.compiler int_bits long_bits) (PB_MAX_REQUIRED_FIELDS cmdline)).map
    fun v => v.value

/-! ## Theorems -/

/-- Claim C1: packing a declared content kind `k` and a declared modifier `h` into one
type byte loses nothing: `PB_LTYPE (k | h) = k`, `PB_HTYPE (k | h) = h`, the byte is below
256, and the 28 bytes obtained from the 28 pairs are pairwise distinct. -/
theorem type_byte_packing_lossless :
    (∀ k ∈ declared_ltypes, ∀ h ∈ declared_htypes,
      PB_LTYPE (k ||| h) = k ∧ PB_HTYPE (k ||| h) = h ∧ (k ||| h) < 2 ^ 8) ∧
    (∀ k ∈ declared_ltypes, ∀ h ∈ declared_htypes,
      ∀ k2 ∈ declared_ltypes, ∀ h2 ∈ declared_htypes,
        (k ||| h) = (k2 ||| h2) → k = k2 ∧ h = h2) ∧
    declared_type_bytes.length = 28 ∧ declared_type_bytes.Nodup := by
  decide

/-- Claim C3: among the declared content kinds, `k <= PB_LTYPE_LAST_PACKABLE` holds
exactly for the four numeric kinds (varint, svarint, fixed32, fixed64); bytes, string
and submessage are not packable. -/
theorem packable_iff_numeric :
    (∀ k ∈ declared_ltypes,
      (k ≤ PB_LTYPE_LAST_PACKABLE ↔
        (k = PB_LTYPE_VARINT ∨ k = PB_LTYPE_SVARINT ∨ k = PB_LTYPE_FIXED32 ∨
          k = PB_LTYPE_FIXED64))) ∧
    ¬ PB_LTYPE_BYTES ≤ PB_LTYPE_LAST_PACKABLE ∧
    ¬ PB_LTYPE_STRING ≤ PB_LTYPE_LAST_PACKABLE ∧
    ¬ PB_LTYPE_SUBMESSAGE ≤ PB_LTYPE_LAST_PACKABLE := by
  decide

/-- Once `errmsg` is set, a failing return leaves the stream as it is. -/
theorem return_error_of_set {σ : Type} (stream : pb_stream_t σ) (msg : Option String)
    (hset : stream.errmsg ≠ none) : (PB_RETURN_ERROR false stream msg).1 = stream := by
  simp [PB_RETURN_ERROR, hset]

/-- Once `errmsg` is set, any series of failing returns leaves the stream as it is. -/
theorem return_errors_of_set {σ : Type} (msgs : List (Option String))
    (stream : pb_stream_t σ) (hset : stream.errmsg ≠ none) :
    return_errors false stream msgs = stream := by
  induction msgs with
  | nil => rfl
  | cons m ms ih =>
    have step : return_errors false stream (m :: ms)
        = return_errors false (PB_RETURN_ERROR false stream m).1 ms := rfl
    rw [step, return_error_of_set stream m hset]
    exact ih

/-- Claim C2: first fault wins.  On a stream whose `errmsg` is unset, after any
non-empty series of `PB_RETURN_ERROR` whose first message `m1` is not `NULL`, `errmsg`
is `m1` (whatever the later messages are) and the rest of the stream is untouched; and
`PB_RETURN_ERROR` on a stream whose `errmsg` is already set leaves the stream
unchanged. -/
theorem first_fault_wins {σ : Type} (stream : pb_stream_t σ) (m1 : String)
    (later : List (Option String)) (hunset : stream.errmsg = none)
    (other : pb_stream_t σ) (msg : Option String) (hset : other.errmsg ≠ none) :
    (return_errors false stream (some m1 :: later)).errmsg = some m1 ∧
    (return_errors false stream (some m1 :: later)).state = stream.state ∧
    (PB_RETURN_ERROR false other msg).1 = other := by
  have first : (PB_RETURN_ERROR false stream (some m1)).1
      = { stream with errmsg := some m1 } := by
    simp [PB_RETURN_ERROR, hunset]
  have step : return_errors false stream (some m1 :: later)
      = return_errors false (PB_RETURN_ERROR false stream (some m1)).1 later := rfl
  rw [step, first, return_errors_of_set later _ (by simp)]
  exact ⟨rfl, rfl, return_error_of_set other msg hset⟩

/-- Claim C2 at a concrete input: a fresh stream failing with "end-of-stream", then
"array overflow", then `NULL`, keeps "end-of-stream"; a stream that already holds
"io error" keeps it. -/
theorem first_fault_wins_witness :
    (return_errors false (⟨7, none⟩ : pb_stream_t Nat)
        [some "end-of-stream", some "array overflow", none]).errmsg = some "end-of-stream" ∧
    (return_errors false (⟨7, none⟩ : pb_stream_t Nat)
        [some "end-of-stream", some "array overflow", none]).state = 7 ∧
    (PB_RETURN_ERROR false (⟨3, some "io error"⟩ : pb_stream_t Nat) (some "late")).1
      = ⟨3, some "io error"⟩ :=
  first_fault_wins ⟨7, none⟩ "end-of-stream" [some "array overflow", none] rfl
    ⟨3, some "io error"⟩ (some "late") (by simp)

/-- For a tag below `2 ^ 61` and a wire type below 8 the key is `8 * tag + wire_type`:
the two operands of `|` share no bit and nothing is cut off by the 64 bits. -/
theorem tag_and_wiretype_eq (t w : Nat) (ht : t < 2 ^ 61) (hw : w < 2 ^ 3) :
    tag_and_wiretype t w = 2 ^ 3 * t + w := by
  unfold tag_and_wiretype
  rw [Nat.shiftLeft_eq, Nat.mul_comm t, ← Nat.mul_add_lt_is_or hw t]
  apply Nat.mod_eq_of_lt
  omega

/-- The key of a tag below `2 ^ 61` and a wire type below 8 gives both back. -/
theorem tag_and_wiretype_split (t w : Nat) (ht : t < 2 ^ 61) (hw : w < 2 ^ 3) :
    tag_and_wiretype t w &&& 7 = w ∧ tag_and_wiretype t w >>> 3 = t := by
  rw [tag_and_wiretype_eq t w ht hw]
  have h7 : (7 : Nat) = 2 ^ 3 - 1 := by norm_num
  rw [h7, Nat.and_pow_two_sub_one_eq_mod, Nat.shiftRight_eq_div_pow]
  constructor <;> omega

/-- Every declared wire type is below 8. -/
theorem declared_wire_types_lt : ∀ w ∈ declared_wire_types, w < 2 ^ 3 := by
  decide

/-- Claim C4: the wire types are 0, 1, 2 and 5 as in the standard wire format, pairwise
distinct and below 8; so for every tag `t` whose key fits the 64-bit varint value
(`t < 2 ^ 61`, which covers every tag a descriptor can hold) and every wire type `w`,
the key `(t << 3) | w` gives back `w` as `key & 7` and `t` as `key >> 3`, and two such
keys are equal only for equal tags and equal wire types. -/
theorem wire_type_key_decomposes :
    (PB_WT_VARINT = 0 ∧ PB_WT_64BIT = 1 ∧ PB_WT_STRING = 2 ∧ PB_WT_32BIT = 5) ∧
    declared_wire_types.Nodup ∧
    (∀ w ∈ declared_wire_types, w < 2 ^ 3) ∧
    (∀ t w, t < 2 ^ 61 → w ∈ declared_wire_types →
      tag_and_wiretype t w &&& 7 = w ∧ tag_and_wiretype t w >>> 3 = t) ∧
    (∀ t1 w1 t2 w2, t1 < 2 ^ 61 → t2 < 2 ^ 61 →
      w1 ∈ declared_wire_types → w2 ∈ declared_wire_types →
      tag_and_wiretype t1 w1 = tag_and_wiretype t2 w2 → t1 = t2 ∧ w1 = w2) := by
  refine ⟨by decide, by decide, declared_wire_types_lt, ?_, ?_⟩
  · intro t w ht hw
    exact tag_and_wiretype_split t w ht (declared_wire_types_lt w hw)
  · intro t1 w1 t2 w2 h1 h2 hw1 hw2 heq
    have s1 := tag_and_wiretype_split t1 w1 h1 (declared_wire_types_lt w1 hw1)
    have s2 := tag_and_wiretype_split t2 w2 h2 (declared_wire_types_lt w2 hw2)
    rw [heq] at s1
    exact ⟨s1.2.symm.trans s2.2, s1.1.symm.trans s2.1⟩

/-- Claim C4 at a concrete input: field 300 with the 4-byte wire type has the key 2405,
which splits back into 5 and 300. -/
theorem wire_type_key_decomposes_witness :
    tag_and_wiretype 300 PB_WT_32BIT = 2405 ∧
    tag_and_wiretype 300 PB_WT_32BIT &&& 7 = PB_WT_32BIT ∧
    tag_and_wiretype 300 PB_WT_32BIT >>> 3 = 300 :=
  ⟨by decide,
    (wire_type_key_decomposes.2.2.2.1 300 PB_WT_32BIT (by decide) (by decide)).1,
    (wire_type_key_decomposes.2.2.2.1 300 PB_WT_32BIT (by decide) (by decide)).2⟩

/-- The terminator has every member zero, in every profile. -/
theorem last_field_eq (field_16bit field_32bit : Bool) :
    PB_LAST_FIELD field_16bit field_32bit =
      { tag := 0, type := 0, data_offset := 0, size_offset := 0, data_size := 0,
        array_size := 0, ptr := 0 } := by
  cases field_16bit <;> cases field_32bit <;> decide

/-- Claim C5: in each of the three profiles `PB_LAST_FIELD` is the descriptor with tag 0
and every other member zero (`ptr` null); a descriptor with a positive tag is never the
terminator; and in a well-formed table an entry is the terminator exactly when its tag
is 0. -/
theorem last_field_is_terminator (field_16bit field_32bit : Bool) :
    PB_LAST_FIELD field_16bit field_32bit =
      { tag := 0, type := 0, data_offset := 0, size_offset := 0, data_size := 0,
        array_size := 0, ptr := 0 } ∧
    (∀ f : pb_field_t, 0 < f.tag → f ≠ PB_LAST_FIELD field_16bit field_32bit) ∧
    (∀ table : List pb_field_t, table_well_formed field_16bit field_32bit table = true →
      ∀ f ∈ table, (f = PB_LAST_FIELD field_16bit field_32bit ↔ f.tag = 0)) := by
  have hlast := last_field_eq field_16bit field_32bit
  refine ⟨hlast, ?_, ?_⟩
  · intro f hpos heq
    rw [heq, hlast] at hpos
    exact Nat.lt_irrefl 0 hpos
  · intro table hwf f hf
    constructor
    · intro heq
      rw [heq, hlast]
    · intro htag
      simp only [table_well_formed, Bool.and_eq_true, beq_iff_eq, List.all_eq_true,
        decide_eq_true_eq] at hwf
      obtain ⟨hend, hbody⟩ := hwf
      have hsplit := List.dropLast_append_getLast? _ (Option.mem_def.mpr hend)
      rw [← hsplit] at hf
      rcases List.mem_append.mp hf with hmem | hmem
      · have := hbody f hmem
        omega
      · simpa using hmem

/-- Claim C5 at a concrete table of the default profile: a required varint field with
tag 1 followed by the terminator; the first entry is not the terminator, the second
is. -/
theorem last_field_is_terminator_witness :
    (({ tag := 1, type := 0, data_offset := 0, size_offset := 0, data_size := 4,
        array_size := 0, ptr := 0 } : pb_field_t) ≠ PB_LAST_FIELD false false) ∧
    (PB_LAST_FIELD false false = PB_LAST_FIELD false false ↔
      (PB_LAST_FIELD false false).tag = 0) :=
  ⟨(last_field_is_terminator false false).2.1 _ (by decide),
   (last_field_is_terminator false false).2.2
     [{ tag := 1, type := 0, data_offset := 0, size_offset := 0, data_size := 4,
        array_size := 0, ptr := 0 }, PB_LAST_FIELD false false]
     (by decide) (PB_LAST_FIELD false false) (by simp)⟩

/-- Claim C6 on the code: the comment of `pb_field_t` asks for a wider profile only for
tags and sizes larger than 256, yet in the default profile the `uint8_t` members store the
tag 256 and the data size 256 as 0 (a tag of 0 is the terminator's), so not every value up
to and including 256 is stored without loss. -/
theorem default_profile_256_not_representable :
    (pb_field_init false false 256 0 0 0 256 0 0).tag = 0 ∧
    (pb_field_init false false 256 0 0 0 256 0 0).data_size = 0 ∧
    ¬ (∀ n, n ≤ 256 →
        (pb_field_init false false n 0 0 0 n 0 0).tag = n ∧
        (pb_field_init false false n 0 0 0 n 0 0).data_size = n) := by
  refine ⟨by decide, by decide, ?_⟩
  intro h
  exact absurd (h 256 (Nat.le_refl 256)).1 (by decide)

/-- What the members hold: in the default profile a field tag is stored without loss
exactly when it is at most 255, and so is a data size; a tag or data size below `2 ^ 16`
(256 included) is stored without loss once `PB_FIELD_16BIT` or `PB_FIELD_32BIT` is
defined, and one below `2 ^ 32` once `PB_FIELD_32BIT` is defined. -/
theorem default_profile_range (tag type data_offset : Nat) (size_offset : Int)
    (data_size array_size ptr : Nat) :
    ((pb_field_init false false tag type data_offset size_offset data_size array_size
        ptr).tag = tag ↔ tag ≤ 255) ∧
    ((pb_field_init false false tag type data_offset size_offset data_size array_size
        ptr).data_size = data_size ↔ data_size ≤ 255) ∧
    (∀ field_16bit field_32bit : Bool, (field_16bit || field_32bit) = true →
      (tag < 2 ^ 16 →
        (pb_field_init field_16bit field_32bit tag type data_offset size_offset data_size
          array_size ptr).tag = tag) ∧
      (data_size < 2 ^ 16 →
        (pb_field_init field_16bit field_32bit tag type data_offset size_offset data_size
          array_size ptr).data_size = data_size)) ∧
    (∀ field_16bit : Bool,
      (tag < 2 ^ 32 →
        (pb_field_init field_16bit true tag type data_offset size_offset data_size
          array_size ptr).tag = tag) ∧
      (data_size < 2 ^ 32 →
        (pb_field_init field_16bit true tag type data_offset size_offset data_size
          array_size ptr).data_size = data_size)) := by
  refine ⟨?_, ?_, ?_, ?_⟩
  · simp only [pb_field_init, to_uint, field_bits]
    constructor <;> intro h <;> simp at * <;> omega
  · simp only [pb_field_init, to_uint, field_bits]
    constructor <;> intro h <;> simp at * <;> omega
  · intro field_16bit field_32bit hwide
    cases field_16bit <;> cases field_32bit <;> simp at hwide <;>
      simp only [pb_field_init, to_uint, field_bits] <;>
      constructor <;> intro h <;> simp <;> omega
  · intro field_16bit
    cases field_16bit <;>
      simp only [pb_field_init, to_uint, field_bits] <;>
      constructor <;> intro h <;> simp <;> omega

/-- Claim C7 on the code: left alone, `PB_MAX_REQUIRED_FIELDS` is 64, the header is
accepted and the capacity is 64; `63` is stopped by `#error` and `100` is accepted with
capacity 100.  But the guard compares what the preprocessor computes, not the capacity:
for `(0u-1)/4294967296` the preprocessor computes 4294967295 in `uintmax_t` and the
header is accepted, while in C code (`int` of 32 bits, `long` of 64 or of 32 bits) `0u-1`
is an `unsigned int` and the capacity is 0. -/
theorem max_required_fields_guard_misses :
    check_max_required_fields none = .accepted ⟨64, false, 64⟩ ∧
    required_fields_capacity 32 64 none = some 64 ∧
    (∃ message, check_max_required_fields (some (.lit 63 false)) = .rejected message) ∧
    check_max_required_fields (some (.lit 100 false)) = .accepted ⟨64, false, 100⟩ ∧
    required_fields_capacity 32 64 (some (.lit 100 false)) = some 100 ∧
    check_max_required_fields
        (some (.div (.sub (.lit 0 true) (.lit 1 false)) (.lit 4294967296 false)))
      = .accepted ⟨64, true, 4294967295⟩ ∧
    required_fields_capacity 32 64
        (some (.div (.sub (.lit 0 true) (.lit 1 false)) (.lit 4294967296 false)))
      = some 0 ∧
    required_fields_capacity 32 32
        (some (.div (.sub (.lit 0 true) (.lit 1 false)) (.lit 4294967296 false)))
      = some 0 := by
  refine ⟨by decide, by decide, ⟨_, rfl⟩, by decide, by decide, by decide, by decide,
    by decide⟩

/-- Claim C8: with error messages enabled, `PB_GET_ERROR` yields "(none)" on a stream
whose `errmsg` is unset and the stored message on a stream whose `errmsg` is set; it
never yields `NULL`; and on a stream whose `errmsg` is unset, `PB_GET_ERROR` after
`PB_RETURN_ERROR(stream, msg)` with a non-null `msg` yields `msg`. -/
theorem get_error_reads_latched {σ : Type} (stream : pb_stream_t σ) :
    (stream.errmsg = none → PB_GET_ERROR false stream = some "(none)") ∧
    (∀ m : String, stream.errmsg = some m → PB_GET_ERROR false stream = some m) ∧
    PB_GET_ERROR false stream ≠ none ∧
    (stream.errmsg = none → ∀ msg : String,
      PB_GET_ERROR false (PB_RETURN_ERROR false stream (some msg)).1 = some msg) := by
  refine ⟨?_, ?_, ?_, ?_⟩
  · intro h
    simp [PB_GET_ERROR, h]
  · intro m h
    simp [PB_GET_ERROR, h]
  · cases h : stream.errmsg <;> simp [PB_GET_ERROR, h]
  · intro h msg
    simp [PB_GET_ERROR, PB_RETURN_ERROR, h]

/-- Claim C8 at concrete streams: a fresh stream reads "(none)", a stream holding
"io error" reads "io error", and a fresh stream that fails with "varint overflow" reads
"varint overflow". -/
theorem get_error_reads_latched_witness :
    PB_GET_ERROR false (⟨0, none⟩ : pb_stream_t Nat) = some "(none)" ∧
    PB_GET_ERROR false (⟨0, some "io error"⟩ : pb_stream_t Nat) = some "io error" ∧
    PB_GET_ERROR false
      (PB_RETURN_ERROR false (⟨0, none⟩ : pb_stream_t Nat) (some "varint overflow")).1
      = some "varint overflow" :=
  ⟨(get_error_reads_latched ⟨0, none⟩).1 rfl,
    (get_error_reads_latched ⟨0, some "io error"⟩).2.1 "io error" rfl,
    (get_error_reads_latched ⟨0, none⟩).2.2.2 rfl "varint overflow"⟩

/-- Claim C9: for every stream and every message, `PB_RETURN_ERROR` makes the enclosing
function return `false` whether or not `PB_NO_ERRMSG` is defined; with `PB_NO_ERRMSG`
the stream is left exactly as it was and `PB_GET_ERROR` is the constant
"(errmsg disabled)". -/
theorem no_errmsg_same_result {σ : Type} (stream : pb_stream_t σ) (msg : Option String) :
    (PB_RETURN_ERROR true stream msg).2 = false ∧
    (PB_RETURN_ERROR false stream msg).2 = false ∧
    (PB_RETURN_ERROR true stream msg).2 = (PB_RETURN_ERROR false stream msg).2 ∧
    (PB_RETURN_ERROR true stream msg).1 = stream ∧
    PB_GET_ERROR true stream = some "(errmsg disabled)" := by
  simp [PB_RETURN_ERROR, PB_GET_ERROR]

/-- Within range, `size_t` subtraction is subtraction. -/
theorem size_t_sub_eq (bits a b : Nat) (hba : b ≤ a) (ha : a < 2 ^ bits) :
    size_t_sub bits a b = a - b := by
  unfold size_t_sub
  have hb : b < 2 ^ bits := Nat.lt_of_le_of_lt hba ha
  rw [Nat.mod_eq_of_lt ha, Nat.mod_eq_of_lt hb]
  have hsum : a + (2 ^ bits - b) = (a - b) + 2 ^ bits := by omega
  rw [hsum, Nat.add_mod_right]
  exact Nat.mod_eq_of_lt (by omega)

/-- For a member that starts at or after the end of the previous one, `pb_delta_end` is
the gap between the two. -/
theorem pb_delta_end_eq (bits : Nat) (m1 m2 : member)
    (hord : m2.offset + m2.size ≤ m1.offset) (hfit : m1.offset < 2 ^ bits) :
    pb_delta_end bits m1 m2 = m1.offset - m2.offset - m2.size := by
  unfold pb_delta_end
  rw [size_t_sub_eq bits m1.offset m2.offset (by omega) hfit]
  exact size_t_sub_eq bits _ _ (by omega) (by omega)

/-- The size the engine reads from the descriptor of a member is the size of its
storage, when the item size and the number of entries fit the descriptor and the member
ends within the range of `size_t`. -/
theorem stored_size_describe (field_16bit field_32bit : Bool) (bits : Nat) (prev : member)
    (d : described_member)
    (hitem : d.item_size < 2 ^ field_bits field_16bit field_32bit)
    (hcount : d.count.getD 0 < 2 ^ field_bits field_16bit field_32bit)
    (hend : (as_member d).offset + (as_member d).size < 2 ^ bits) :
    stored_size bits (describe field_16bit field_32bit bits prev d)
      = (as_member d).size := by
  have harray : PB_HTYPE (to_uint 8 PB_HTYPE_ARRAY) = PB_HTYPE_ARRAY := by decide
  have hsingle : PB_HTYPE (to_uint 8 PB_HTYPE_REQUIRED) ≠ PB_HTYPE_ARRAY := by decide
  cases hc : d.count with
  | none =>
    simp only [stored_size, describe, pb_field_init, hc, hsingle, if_false, as_member,
      Option.getD_none, Nat.mul_one, to_uint]
    exact Nat.mod_eq_of_lt hitem
  | some n =>
    rw [hc] at hcount
    simp only [Option.getD_some] at hcount
    simp only [as_member, hc, Option.getD_some] at hend
    simp only [stored_size, describe, pb_field_init, hc, harray, if_true, as_member,
      Option.getD_some, to_uint]
    rw [Nat.mod_eq_of_lt hitem, Nat.mod_eq_of_lt hcount]
    exact Nat.mod_eq_of_lt (by omega)

/-- The walk recovers the offsets of the members that follow `prev`, when it stands at
`prev` and the members are in ascending order, with gaps that fit `data_offset` and
sizes that fit `data_size` and `array_size`. -/
theorem walk_offsets_from (field_16bit field_32bit : Bool) (bits : Nat)
    (members : List described_member) :
    ∀ prev : member, ascending_from prev (members.map as_member) = true →
      gaps_at_most 255 prev (members.map as_member) = true →
      sizes_fit field_16bit field_32bit members = true →
      within_size_t bits members = true →
      walk_offsets bits prev.offset prev.size
          (describe_all field_16bit field_32bit bits prev members)
        = members.map fun d => d.offset := by
  induction members with
  | nil => intro prev _ _ _ _; rfl
  | cons d ds ih =>
    intro prev hasc hgap hsizes hfits
    simp only [List.map_cons, ascending_from, Bool.and_eq_true, decide_eq_true_eq] at hasc
    simp only [List.map_cons, gaps_at_most, Bool.and_eq_true, decide_eq_true_eq] at hgap
    simp only [sizes_fit, List.all_cons, Bool.and_eq_true, decide_eq_true_eq] at hsizes
    simp only [within_size_t, List.all_cons, Bool.and_eq_true, decide_eq_true_eq] at hfits
    have hoff : (as_member d).offset = d.offset := rfl
    have hdelta := pb_delta_end_eq bits (as_member d) prev hasc.1 (by omega)
    have hstored : (describe field_16bit field_32bit bits prev d).data_offset
        = d.offset - prev.offset - prev.size := by
      simp only [describe, pb_field_init, to_uint, hdelta, hoff]
      exact Nat.mod_eq_of_lt (by omega)
    have hpos : prev.offset + prev.size + (d.offset - prev.offset - prev.size)
        = d.offset := by omega
    have hsize := stored_size_describe field_16bit field_32bit bits prev d
      hsizes.1.1 hsizes.1.2 hfits.1
    simp only [describe_all, walk_offsets, hstored, hpos, hsize, List.map_cons]
    exact congrArg (List.cons d.offset) (ih (as_member d) hasc.2 hgap.2 hsizes.2 hfits.2)

/-- Claim C10, as stated, fails, in two ways.  With a one-byte member at offset 0 and the
next described member at offset 301 (300 bytes in between that the table does not
describe), `pb_delta_end` is 300, the `uint8_t` member `data_offset` keeps 44 of it, and
the walk arrives at 45 instead of 301, in the default and in the 32-bit profile alike.
With a 300-byte member at offset 0 and the next member right behind it at offset 300,
the default profile keeps 44 of the size in its `uint8_t` member `data_size`, and the
walk arrives at 44 instead of 300. -/
theorem delta_end_offsets_not_recovered :
    ascending_from ⟨0, 0⟩ ([⟨1, 0, 1, none⟩, ⟨2, 301, 1, none⟩].map as_member) = true ∧
    pb_delta_end 64 ⟨301, 1⟩ ⟨0, 1⟩ = 300 ∧
    recovered_offsets false false 64 [⟨1, 0, 1, none⟩, ⟨2, 301, 1, none⟩] = [0, 45] ∧
    recovered_offsets false true 64 [⟨1, 0, 1, none⟩, ⟨2, 301, 1, none⟩] = [0, 45] ∧
    ascending_from ⟨0, 0⟩ ([⟨1, 0, 300, none⟩, ⟨2, 300, 1, none⟩].map as_member) = true ∧
    pb_delta_end 64 ⟨300, 1⟩ ⟨0, 300⟩ = 0 ∧
    recovered_offsets false false 64 [⟨1, 0, 300, none⟩, ⟨2, 300, 1, none⟩] = [0, 44] ∧
    recovered_offsets false false 64 [⟨1, 0, 1, none⟩, ⟨2, 301, 1, none⟩]
      ≠ ([⟨1, 0, 1, none⟩, ⟨2, 301, 1, none⟩] : List described_member).map
          (fun d => d.offset) ∧
    recovered_offsets false false 64 [⟨1, 0, 300, none⟩, ⟨2, 300, 1, none⟩]
      ≠ ([⟨1, 0, 300, none⟩, ⟨2, 300, 1, none⟩] : List described_member).map
          (fun d => d.offset) := by
  decide

/-- Claim C10, amended: for a previous member at offset `o2` of size `s2` and a member
at offset `o1` with `o2 + s2 <= o1`, `pb_delta_end = o1 - o2 - s2` and
`o2 + s2 + pb_delta_end = o1`; consequently, for every layout of members in ascending
non-overlapping order in which every gap is at most 255 (what the `uint8_t` member
`data_offset` holds) and every item size and number of entries fits the members
`data_size` and `array_size` of the profile, accumulating
`pos := pos + previous size + data_offset` along the table recovers the absolute offset
of every member.  Offsets and sizes are `size_t` values. -/
theorem delta_end_recovers_offsets (field_16bit field_32bit : Bool) (bits : Nat)
    (m1 m2 : member) (members : List described_member)
    (hord : m2.offset + m2.size ≤ m1.offset) (hfit : m1.offset < 2 ^ bits)
    (hasc : ascending_from ⟨0, 0⟩ (members.map as_member) = true)
    (hgap : gaps_at_most 255 ⟨0, 0⟩ (members.map as_member) = true)
    (hsizes : sizes_fit field_16bit field_32bit members = true)
    (hfits : within_size_t bits members = true) :
    pb_delta_end bits m1 m2 = m1.offset - m2.offset - m2.size ∧
    m2.offset + m2.size + pb_delta_end bits m1 m2 = m1.offset ∧
    recovered_offsets field_16bit field_32bit bits members
      = members.map fun d => d.offset := by
  have hdelta := pb_delta_end_eq bits m1 m2 hord hfit
  refine ⟨hdelta, ?_, ?_⟩
  · rw [hdelta]
    omega
  · exact walk_offsets_from field_16bit field_32bit bits members ⟨0, 0⟩ hasc hgap hsizes
      hfits

/-- Claim C10 at a concrete layout with 32-bit `size_t` in the default profile: members
at offsets 0, 4, 8 and 48, the third an array of 5 items of 8 bytes (three bytes of
padding before it); the gap between the second and the third is 3, and the walk
recovers all four offsets. -/
theorem delta_end_recovers_offsets_witness :
    pb_delta_end 32 ⟨8, 40⟩ ⟨4, 1⟩ = 8 - 4 - 1 ∧
    4 + 1 + pb_delta_end 32 ⟨8, 40⟩ ⟨4, 1⟩ = 8 ∧
    recovered_offsets false false 32
        [⟨1, 0, 4, none⟩, ⟨2, 4, 1, none⟩, ⟨3, 8, 8, some 5⟩, ⟨4, 48, 40, none⟩]
      = ([⟨1, 0, 4, none⟩, ⟨2, 4, 1, none⟩, ⟨3, 8, 8, some 5⟩, ⟨4, 48, 40, none⟩] :
          List described_member).map fun d => d.offset :=
  delta_end_recovers_offsets false false 32 ⟨8, 40⟩ ⟨4, 1⟩
    [⟨1, 0, 4, none⟩, ⟨2, 4, 1, none⟩, ⟨3, 8, 8, some 5⟩, ⟨4, 48, 40, none⟩]
    (by decide) (by decide) (by decide) (by decide) (by decide) (by decide)

/-- A value within the range of a 32-bit `int` is unchanged by the conversion to an
`int` of at least 32 bits. -/
theorem to_int_eq (int_bits : Nat) (v : Int) (hbits : 32 ≤ int_bits)
    (hlo : -(2 : Int) ^ 31 ≤ v) (hhi : v < (2 : Int) ^ 31) : to_int int_bits v = v := by
  unfold to_int
  have hsplit : (2 : Int) ^ int_bits = 2 * 2 ^ (int_bits - 1) := by
    have hw : int_bits = (int_bits - 1) + 1 := by omega
    conv_lhs => rw [hw, pow_succ]
    ring
  have hhalf : (2 : Int) ^ 31 ≤ 2 ^ (int_bits - 1) :=
    pow_le_pow_right₀ (by norm_num) (by omega)
  rw [hsplit, Int.emod_eq_of_lt (by omega) (by omega)]
  omega

/-- Claim C11: for members `m1` at offset `o1` and `m2` at offset `o2`, both below
`2 ^ 31`, and an `int` of at least 32 bits, `pb_delta(st, m1, m2)` is the signed
distance `o1 - o2`; so `o2 + pb_delta(st, m1, m2) = o1`,
`pb_delta(st, m1, m2) = -pb_delta(st, m2, m1)`, and the value is negative exactly when
`m1` is stored before `m2`. -/
theorem pb_delta_signed_distance (int_bits : Nat) (m1 m2 : member)
    (hbits : 32 ≤ int_bits) (h1 : m1.offset < 2 ^ 31) (h2 : m2.offset < 2 ^ 31) :
    pb_delta int_bits m1 m2 = (m1.offset : Int) - (m2.offset : Int) ∧
    (m2.offset : Int) + pb_delta int_bits m1 m2 = (m1.offset : Int) ∧
    pb_delta int_bits m1 m2 = -pb_delta int_bits m2 m1 ∧
    (pb_delta int_bits m1 m2 < 0 ↔ m1.offset < m2.offset) := by
  have c1 : ((m1.offset : Nat) : Int) < (2 : Int) ^ 31 := by exact_mod_cast h1
  have c2 : ((m2.offset : Nat) : Int) < (2 : Int) ^ 31 := by exact_mod_cast h2
  have p1 : (0 : Int) ≤ (m1.offset : Int) := Int.ofNat_nonneg _
  have p2 : (0 : Int) ≤ (m2.offset : Int) := Int.ofNat_nonneg _
  have e1 := to_int_eq int_bits (m1.offset : Int) hbits (by omega) c1
  have e2 := to_int_eq int_bits (m2.offset : Int) hbits (by omega) c2
  have d12 : pb_delta int_bits m1 m2 = (m1.offset : Int) - (m2.offset : Int) := by
    unfold pb_delta
    rw [e1, e2]
    exact to_int_eq int_bits _ hbits (by omega) (by omega)
  have d21 : pb_delta int_bits m2 m1 = (m2.offset : Int) - (m1.offset : Int) := by
    unfold pb_delta
    rw [e1, e2]
    exact to_int_eq int_bits _ hbits (by omega) (by omega)
  refine ⟨d12, ?_, ?_, ?_⟩
  · rw [d12]; omega
  · rw [d12, d21]; omega
  · rw [d12]; omega

/-- Claim C11 at a concrete pair with a 32-bit `int`: a has-flag at offset 4 and its
data at offset 8 give `pb_delta = -4`, and `8 + (-4) = 4`. -/
theorem pb_delta_signed_distance_witness :
    pb_delta 32 ⟨4, 1⟩ ⟨8, 4⟩ = ((4 : Nat) : Int) - ((8 : Nat) : Int) ∧
    ((8 : Nat) : Int) + pb_delta 32 ⟨4, 1⟩ ⟨8, 4⟩ = ((4 : Nat) : Int) ∧
    pb_delta 32 ⟨4, 1⟩ ⟨8, 4⟩ = -pb_delta 32 ⟨8, 4⟩ ⟨4, 1⟩ ∧
    (pb_delta 32 ⟨4, 1⟩ ⟨8, 4⟩ < 0 ↔ 4 < 8) :=
  pb_delta_signed_distance 32 ⟨4, 1⟩ ⟨8, 4⟩ (by decide) (by decide) (by decide)

/-- Claim C12: for an array member of `n` elements whose element type has size
`s >= 1`, `pb_membersize` of the member is `n * s`, `pb_membersize` of its first element
is `s`, the division leaves no remainder, and `pb_arraysize` is exactly `n` (for every
`n`, in particular every `n >= 1`). -/
theorem pb_arraysize_exact (elem : ctype) (n : Nat) (hs : 1 ≤ sizeof elem) :
    pb_membersize (.array elem n) = n * sizeof elem ∧
    pb_membersize elem = sizeof elem ∧
    pb_membersize (.array elem n) % pb_membersize elem = 0 ∧
    pb_arraysize (.array elem n) = some n := by
  refine ⟨rfl, rfl, ?_, ?_⟩
  · show n * sizeof elem % sizeof elem = 0
    exact Nat.mul_mod_left n (sizeof elem)
  · show some (n * sizeof elem / sizeof elem) = some n
    rw [Nat.mul_div_cancel n hs]

/-- Claim C12 at concrete members: `uint32_t values[10]` has 10 elements, and an array of
7 rows of 5 three-byte elements has 7 rows. -/
theorem pb_arraysize_exact_witness :
    (pb_membersize (.array (.object 4) 10) = 10 * sizeof (.object 4) ∧
      pb_membersize (.object 4) = sizeof (.object 4) ∧
      pb_membersize (.array (.object 4) 10) % pb_membersize (.object 4) = 0 ∧
      pb_arraysize (.array (.object 4) 10) = some 10) ∧
    pb_arraysize (.array (.array (.object 3) 5) 7) = some 7 :=
  ⟨pb_arraysize_exact (.object 4) 10 (by decide),
    (pb_arraysize_exact (.array (.object 3) 5) 7 (by decide)).2.2.2⟩

set_option maxRecDepth 100000 in
/-- Claim C13: for every 8-bit value `x`, `PB_HTYPE(x)` and `PB_LTYPE(x)` share no bit
and together give `x` back, `PB_LTYPE(x)` is below 16 and `PB_HTYPE(x)` is a multiple of
16, and both macros are idempotent. -/
theorem htype_ltype_partition (x : Nat) (hx : x < 2 ^ 8) :
    PB_HTYPE x &&& PB_LTYPE x = 0 ∧
    PB_HTYPE x ||| PB_LTYPE x = x ∧
    PB_LTYPE x < 16 ∧
    PB_HTYPE x % 16 = 0 ∧
    PB_LTYPE (PB_LTYPE x) = PB_LTYPE x ∧
    PB_HTYPE (PB_HTYPE x) = PB_HTYPE x := by
  have all : ∀ y, y < 256 →
      (PB_HTYPE y &&& PB_LTYPE y = 0 ∧ PB_HTYPE y ||| PB_LTYPE y = y ∧
        PB_LTYPE y < 16 ∧ PB_HTYPE y % 16 = 0 ∧
        PB_LTYPE (PB_LTYPE y) = PB_LTYPE y ∧ PB_HTYPE (PB_HTYPE y) = PB_HTYPE y) := by
    decide
  exact all x hx

/-- Claim C13 at a concrete byte: `0x25` (an array of strings) splits into `0x20` and
`0x05`. -/
theorem htype_ltype_partition_witness :
    PB_HTYPE 0x25 = 0x20 ∧ PB_LTYPE 0x25 = 0x05 ∧
    (PB_HTYPE 0x25 &&& PB_LTYPE 0x25 = 0 ∧
      PB_HTYPE 0x25 ||| PB_LTYPE 0x25 = 0x25 ∧
      PB_LTYPE 0x25 < 16 ∧
      PB_HTYPE 0x25 % 16 = 0 ∧
      PB_LTYPE (PB_LTYPE 0x25) = PB_LTYPE 0x25 ∧
      PB_HTYPE (PB_HTYPE 0x25) = PB_HTYPE 0x25) :=
  ⟨by decide, by decide, htype_ltype_partition 0x25 (by decide)⟩

/-- Claim C14: the declared content kinds are exactly the values 0 .. 6, that is
`0 .. PB_LTYPES_COUNT - 1` with `PB_LTYPES_COUNT = 7`, pairwise distinct; for every
declared content kind `k` and every declared modifier `h`,
`PB_LTYPE(k | h) < PB_LTYPES_COUNT`, so that indexing a table of `PB_LTYPES_COUNT`
entries with it always finds an entry. -/
theorem declared_ltypes_index_in_bounds :
    PB_LTYPES_COUNT = 7 ∧
    declared_ltypes = List.range PB_LTYPES_COUNT ∧
    declared_ltypes.Nodup ∧
    (∀ k ∈ declared_ltypes, ∀ h ∈ declared_htypes,
      PB_LTYPE (k ||| h) < PB_LTYPES_COUNT) ∧
    (∀ (α : Type) (table : List α), table.length = PB_LTYPES_COUNT →
      ∀ k ∈ declared_ltypes, ∀ h ∈ declared_htypes,
        (table[PB_LTYPE (k ||| h)]?).isSome = true) := by
  have hbound : ∀ k ∈ declared_ltypes, ∀ h ∈ declared_htypes,
      PB_LTYPE (k ||| h) < PB_LTYPES_COUNT := by decide
  refine ⟨rfl, by decide, by decide, hbound, ?_⟩
  intro α table hlen k hk h hh
  have hidx : PB_LTYPE (k ||| h) < table.length := by
    rw [hlen]
    exact hbound k hk h hh
  rw [List.getElem?_eq_getElem hidx]
  rfl

/-- Claim C14 at a concrete table: the wire type of each content kind, indexed by the
content kind of an optional submessage field (type byte `0x16`), yields the last
entry. -/
theorem declared_ltypes_index_witness :
    ([0, 0, 5, 1, 2, 2, 2] : List Nat)[PB_LTYPE (PB_LTYPE_SUBMESSAGE ||| PB_HTYPE_OPTIONAL)]?
        = some 2 ∧
    (([0, 0, 5, 1, 2, 2, 2] : List Nat)[PB_LTYPE
        (PB_LTYPE_SUBMESSAGE ||| PB_HTYPE_OPTIONAL)]?).isSome = true :=
  ⟨by decide,
    declared_ltypes_index_in_bounds.2.2.2.2 Nat [0, 0, 5, 1, 2, 2, 2] rfl
      PB_LTYPE_SUBMESSAGE (by decide) PB_HTYPE_OPTIONAL (by decide)⟩

/-- Claim C15: `tag`, `data_size` and `array_size` are 8 bits wide by default, 16 with
`PB_FIELD_16BIT` and 32 with `PB_FIELD_32BIT` (which prevails when both are defined):
each holds a value without loss exactly when the value is below 2 to that width.  In
every profile `data_offset` holds exactly the values 0 .. 255 and `size_offset` exactly
the values -128 .. 127, and what they store does not depend on the profile; so the
largest gap and the largest presence-flag distance a descriptor can hold are the same
in every profile. -/
theorem profile_widens_only_sizes (field_16bit field_32bit : Bool)
    (tag type data_offset : Nat) (size_offset : Int) (data_size array_size ptr : Nat) :
    (field_bits false false = 8 ∧ field_bits true false = 16 ∧
      field_bits false true = 32 ∧ field_bits true true = 32) ∧
    ((pb_field_init field_16bit field_32bit tag type data_offset size_offset data_size
        array_size ptr).tag = tag ↔ tag < 2 ^ field_bits field_16bit field_32bit) ∧
    ((pb_field_init field_16bit field_32bit tag type data_offset size_offset data_size
        array_size ptr).data_size = data_size ↔
      data_size < 2 ^ field_bits field_16bit field_32bit) ∧
    ((pb_field_init field_16bit field_32bit tag type data_offset size_offset data_size
        array_size ptr).array_size = array_size ↔
      array_size < 2 ^ field_bits field_16bit field_32bit) ∧
    (pb_field_init field_16bit field_32bit tag type data_offset size_offset data_size
        array_size ptr).data_offset =
      (pb_field_init false false tag type data_offset size_offset data_size array_size
        ptr).data_offset ∧
    (pb_field_init field_16bit field_32bit tag type data_offset size_offset data_size
        array_size ptr).data_offset ≤ 255 ∧
    ((pb_field_init field_16bit field_32bit tag type data_offset size_offset data_size
        array_size ptr).data_offset = data_offset ↔ data_offset ≤ 255) ∧
    (pb_field_init field_16bit field_32bit tag type data_offset size_offset data_size
        array_size ptr).size_offset =
      (pb_field_init false false tag type data_offset size_offset data_size array_size
        ptr).size_offset ∧
    (-128 ≤ (pb_field_init field_16bit field_32bit tag type data_offset size_offset
        data_size array_size ptr).size_offset ∧
      (pb_field_init field_16bit field_32bit tag type data_offset size_offset data_size
        array_size ptr).size_offset ≤ 127) ∧
    ((pb_field_init field_16bit field_32bit tag type data_offset size_offset data_size
        array_size ptr).size_offset = size_offset ↔
      (-128 ≤ size_offset ∧ size_offset ≤ 127)) ∧
    (pb_field_init field_16bit field_32bit tag type data_offset size_offset data_size
        array_size ptr).type =
      (pb_field_init false false tag type data_offset size_offset data_size array_size
        ptr).type ∧
    (pb_field_init field_16bit field_32bit tag type data_offset size_offset data_size
        array_size ptr).ptr = ptr := by
  have hpos : ∀ b : Nat, 0 < 2 ^ b := fun b => Nat.pow_pos (by decide)
  have hmod : ∀ v b : Nat, (v % 2 ^ b = v ↔ v < 2 ^ b) := fun v b =>
    ⟨fun h => h ▸ Nat.mod_lt v (hpos b), Nat.mod_eq_of_lt⟩
  refine ⟨by decide, hmod tag _, hmod data_size _, hmod array_size _, rfl, ?_, ?_, rfl,
    ?_, ?_, rfl, rfl⟩
  · show data_offset % 2 ^ 8 ≤ 255
    omega
  · show data_offset % 2 ^ 8 = data_offset ↔ data_offset ≤ 255
    omega
  · show -128 ≤ (size_offset + 128) % 256 - 128 ∧ (size_offset + 128) % 256 - 128 ≤ 127
    omega
  · show (size_offset + 128) % 256 - 128 = size_offset ↔
      (-128 ≤ size_offset ∧ size_offset ≤ 127)
    omega

end Nanopb
